import Mathlib

/-!
The freewrite-windows renderer: the renderer's document and preference logic

A shallow embedding of `src/app-ui/src/renderer.js`.

* A JavaScript string is a sequence of UTF-16 code units, modelled as a list
  of natural numbers.
* Each handler is a function from the module state (and the answers of the
  capabilities it awaits) to the new state and the list of capability calls
  it made, in order.  An asynchronous handler is taken as one step: no other
  handler runs while it awaits a dialog or a file access.
* The editor is a text area: reading `editor.value` gives the assigned
  string with its line breaks normalised.  The other DOM cells
  (`fontSizeSelect.value`, `editor.style`, text contents, class lists) are
  modelled as plain cells that hold what was last assigned to them.
-/

namespace Freewrite

/-! ## Strings -/

/-- A JavaScript string: its UTF-16 code units. -/
abbrev JSString := List Nat

/-- The code units of a literal made of Basic Multilingual Plane characters. -/
def js (s : String) : JSString := s.data.map Char.toNat

/-- The ECMAScript `WhiteSpace` and `LineTerminator` code units: the set that
both `String.prototype.trim` strips and the regular expression class `\s`
matches. -/
def isWhiteSpace (c : Nat) : Bool :=
  c == 0x09 || c == 0x0A || c == 0x0B || c == 0x0C || c == 0x0D || c == 0x20 ||
  c == 0xA0 || c == 0x1680 || (0x2000 ≤ c && c ≤ 0x200A) || c == 0x2028 ||
  c == 0x2029 || c == 0x202F || c == 0x205F || c == 0x3000 || c == 0xFEFF

/-- Model of `String.prototype.trim`: strips leading and trailing white space. -/
def trim (t : JSString) : JSString :=
  (t.dropWhile isWhiteSpace).rdropWhile isWhiteSpace

/-- The loop of `String.prototype.split` for the separator `/\s+/`.
`cur` is the piece being collected since the end of the last separator and
`inSep` tells that the scan is inside a separator match (a maximal run of
white space, since `+` is greedy).  A separator match closes the current
piece; the end of the input closes the last one. -/
def splitLoop (cur : JSString) (inSep : Bool) : JSString → List JSString
  | [] => [cur]
  | c :: cs =>
    if isWhiteSpace c then
      if inSep then splitLoop cur true cs else cur :: splitLoop [] true cs
    else splitLoop (cur ++ [c]) false cs

/-- Model of `s.split(/\s+/)`. -/
def splitWhiteSpace (s : JSString) : List JSString := splitLoop [] false s

/-- The `wordCount` constant of `updateCounts`:
`text.trim() === "" ? 0 : text.trim().split(/\s+/).length`. -/
def wordCount (text : JSString) : Nat :=
  if trim text = [] then 0 else (splitWhiteSpace (trim text)).length

/-- The `charCount` constant of `updateCounts`: `text.length`. -/
def charCount (text : JSString) : Nat := text.length

/-- The newline normalisation of a text area, scanning left to right: a
carriage return becomes a line feed, and a line feed that directly follows a
carriage return (`afterCR`) is dropped, so that CR LF and a lone CR both
become LF. -/
def normalizeLoop (afterCR : Bool) : JSString → JSString
  | [] => []
  | c :: cs =>
    if c = 0x0D then 0x0A :: normalizeLoop true cs
    else if c = 0x0A ∧ afterCR = true then normalizeLoop false cs
    else c :: normalizeLoop false cs

/-- Modelled from the spec: the page that declares the element `editor` is not
among the sources; the spec calls it a text input area, so it is a text area,
and what `editor.value` reads after the assignment of `v` is `v` with every
CR LF pair and every other CR replaced by LF. -/
def normalizeNewlines (v : JSString) : JSString := normalizeLoop false v

/-! ## Numbers and values -/

/-- The JavaScript numbers the renderer computes with: `NaN` and the integers.
An integer stands for the double of the same value, which is exact for
magnitudes up to 2^53; font sizes are far below that. -/
inductive JSNum where
  | nan
  | int (n : Int)
  deriving DecidableEq, Repr

/-- JavaScript `a + b` on numbers. -/
def JSNum.add : JSNum → JSNum → JSNum
  | .int a, .int b => .int (a + b)
  | _, _ => .nan

/-- JavaScript `a - b` on numbers. -/
def JSNum.sub : JSNum → JSNum → JSNum
  | .int a, .int b => .int (a - b)
  | _, _ => .nan

/-- Model of `Math.min(a, b)`: `NaN` when an argument is `NaN`. -/
def JSNum.min : JSNum → JSNum → JSNum
  | .int a, .int b => .int (Min.min a b)
  | _, _ => .nan

/-- Model of `Math.max(a, b)`: `NaN` when an argument is `NaN`. -/
def JSNum.max : JSNum → JSNum → JSNum
  | .int a, .int b => .int (Max.max a b)
  | _, _ => .nan

/-- The decimal digits of a natural number, as code units. -/
def natToString (n : Nat) : JSString := (Nat.toDigits 10 n).map Char.toNat

/-- Model of `Number.prototype.toString` on `NaN` and on integers. -/
def numToString : JSNum → JSString
  | .nan => js "NaN"
  | .int (.ofNat n) => natToString n
  | .int (.negSucc n) => 0x2D :: natToString (n + 1)

/-- A decimal digit code unit. -/
def isDigit (c : Nat) : Bool := 0x30 ≤ c && c ≤ 0x39

/-- The value of a sequence of decimal digits. -/
def digitsValue (z : JSString) : Nat := z.foldl (fun a c => 10 * a + (c - 0x30)) 0

/-- Model of `parseInt(s, 10)` on a string: leading white space is skipped,
one sign is read, then the longest prefix of decimal digits; no digit gives
`NaN`. -/
def parseInt10 (s : JSString) : JSNum :=
  let t := s.dropWhile isWhiteSpace
  let neg : Bool := t.head? == some 0x2D
  let r := if t.head? == some 0x2D || t.head? == some 0x2B then t.tail else t
  let z := r.takeWhile isDigit
  if z = [] then .nan
  else .int ((if neg then -1 else 1) * (digitsValue z : Int))

/-- The values held by `selectedFontSize`: the string of a selector or of the
store, or the number computed by a zoom. -/
inductive JSVal where
  | str (s : JSString)
  | num (n : JSNum)
  deriving DecidableEq, Repr

/-- JavaScript `ToString` on these values. -/
def JSVal.toStr : JSVal → JSString
  | .str s => s
  | .num n => numToString n

/-- A value thrown by a capability. `message` is its `message` property when
it has one, `asString` its string conversion. -/
structure JSErr where
  message : Option JSString
  asString : JSString
  deriving DecidableEq, Repr

/-- The text `${err.message || err}` of the failure alerts. -/
def JSErr.text (e : JSErr) : JSString :=
  match e.message with
  | some (c :: cs) => c :: cs
  | _ => e.asString

/-! ## State -/

/-- The module variables of the renderer, the `localStorage` of the page and
the DOM cells the handlers write. -/
structure State where
  /-- What `editor.value` reads: the value of the text area. -/
  editorValue : JSString
  /-- The variable `currentFilePath`: `null` or a string. -/
  currentFilePath : Option JSString
  hasUnsavedChanges : Bool
  selectedFontFamily : JSString
  selectedFontSize : JSVal
  /-- The store `localStorage`: `getItem` of a key, `none` for `null`. -/
  localStorage : JSString → Option JSString
  /-- The cell `wordCountEl.textContent`. -/
  wordCountText : JSString
  /-- The cell `charCountEl.textContent`. -/
  charCountText : JSString
  /-- The cell `saveStatusEl.textContent`. -/
  saveStatusText : JSString
  /-- Whether `saveStatusEl.classList` holds `unsaved`. -/
  saveStatusUnsaved : Bool
  /-- The value assigned to `fontFamilySelect.value`. -/
  fontFamilySelectValue : JSString
  /-- The value assigned to `fontSizeSelect.value`. -/
  fontSizeSelectValue : JSString
  /-- The value assigned to `editor.style.fontFamily`. -/
  editorFontFamily : JSString
  /-- The value assigned to `editor.style.fontSize`. -/
  editorFontSize : JSString
  /-- Whether `document.body.classList` holds `dark-theme`. -/
  bodyDarkTheme : Bool
  /-- Whether `document.body.classList` holds `light-theme`. -/
  bodyLightTheme : Bool
  /-- Whether the element `sun` has the class `hidden`. -/
  sunHidden : Bool
  /-- Whether the element `moon` has the class `hidden`. -/
  moonHidden : Bool

/-- Model of `localStorage.setItem(key, value)`. -/
def setItem (ls : JSString → Option JSString) (key value : JSString) :
    JSString → Option JSString :=
  fun k => if k = key then some value else ls k

/-- A call the renderer makes to a capability outside of its own state. -/
inductive Event where
  | alert (msg : JSString)
  | confirm (msg : JSString)
  | saveDialog
  | openDialog
  | writeTextFile (path content : JSString)
  | readTextFile (path : JSString)
  | consoleError (e : JSErr)
  | focusEditor
  | preventDefault
  deriving DecidableEq, Repr

/-- The answers of the capabilities a handler may await: the `confirm` box,
the `save` and `open` dialogs of the dialog plugin (a chosen path or `null`,
or a rejection) and `writeTextFile` and `readTextFile` of the fs plugin. -/
structure Env where
  confirm : Bool
  saveDialog : Except JSErr (Option JSString)
  openDialog : Except JSErr (Option JSString)
  writeTextFile : JSString → JSString → Except JSErr Unit
  readTextFile : JSString → Except JSErr JSString

/-- A `keydown` event: the fields `handleZoom` reads. -/
structure KeyEvent where
  ctrlKey : Bool
  key : JSString
  deriving DecidableEq, Repr

/-- JavaScript truthiness of a `string | null` cell such as `currentFilePath`:
`null` and the empty string are falsy. -/
def truthy : Option JSString → Bool
  | some (_ :: _) => true
  | _ => false

/-! ## Handlers -/

/-- The function `updateCounts`. -/
def updateCounts (s : State) : State :=
  let text := s.editorValue
  { s with
    wordCountText := js "Words: " ++ numToString (.int (wordCount text))
    charCountText := js "Characters: " ++ numToString (.int (charCount text)) }

/-- The function `markAsUnsaved`. -/
def markAsUnsaved (s : State) : State :=
  let s1 :=
    if !s.hasUnsavedChanges then
      { s with hasUnsavedChanges := true, saveStatusText := js "Unsaved",
               saveStatusUnsaved := true }
    else s
  { s1 with localStorage := setItem s1.localStorage (js "unsavedContent") s1.editorValue }

/-- The function `markAsSaved`. -/
def markAsSaved (s : State) : State :=
  { s with hasUnsavedChanges := false, saveStatusText := js "Saved",
           saveStatusUnsaved := false }

/-- The function `toggleTheme`. -/
def toggleTheme (s : State) : State :=
  if s.bodyDarkTheme then
    { s with bodyDarkTheme := false, bodyLightTheme := true, sunHidden := false,
             moonHidden := true,
             localStorage := setItem s.localStorage (js "theme") (js "light") }
  else
    { s with bodyLightTheme := false, bodyDarkTheme := true, sunHidden := true,
             moonHidden := false,
             localStorage := setItem s.localStorage (js "theme") (js "dark") }

/-- The font stack `applyFontFamily` uses for the family `default`. -/
def systemFontStack : JSString :=
  js "-apple-system, BlinkMacSystemFont, \"Segoe UI\", Roboto, Oxygen, Ubuntu, Cantarell, \"Open Sans\", \"Helvetica Neue\", sans-serif"

/-- The function `applyFontFamily`. -/
def applyFontFamily (fontFamily : JSString) (s : State) : State :=
  { s with
    selectedFontFamily := fontFamily
    editorFontFamily := if fontFamily = js "default" then systemFontStack else fontFamily
    localStorage := setItem s.localStorage (js "fontFamily") fontFamily }

/-- The function `applyFontSize`. -/
def applyFontSize (fontSize : JSVal) (s : State) : State :=
  { s with
    selectedFontSize := fontSize
    editorFontSize := fontSize.toStr ++ js "px"
    localStorage := setItem s.localStorage (js "fontSize") fontSize.toStr }

/-- The theme block of `loadPreferences`:
`localStorage.getItem("theme") || "dark"`, and the switch to the light theme
when that is `light`. -/
def loadTheme (s : State) : State :=
  let savedTheme := if truthy (s.localStorage (js "theme")) then s.localStorage (js "theme")
                    else some (js "dark")
  if savedTheme = some (js "light") then
    { s with bodyDarkTheme := false, bodyLightTheme := true, sunHidden := false,
             moonHidden := true }
  else s

/-- The font family block of `loadPreferences`. -/
def loadFontFamily (s : State) : State :=
  match s.localStorage (js "fontFamily") with
  | some (c :: cs) => applyFontFamily (c :: cs) { s with fontFamilySelectValue := c :: cs }
  | _ => s

/-- The font size block of `loadPreferences`. -/
def loadFontSize (s : State) : State :=
  match s.localStorage (js "fontSize") with
  | some (c :: cs) => applyFontSize (.str (c :: cs)) { s with fontSizeSelectValue := c :: cs }
  | _ => s

/-- The function `loadPreferences`: its three blocks in sequence. -/
def loadPreferences (s : State) : State :=
  loadFontSize (loadFontFamily (loadTheme s))

/-- The function `newDocument`. -/
def newDocument (s : State) (env : Env) : State × List Event :=
  let clear : State :=
    markAsSaved (updateCounts
      { s with editorValue := normalizeNewlines [], currentFilePath := none })
  if s.hasUnsavedChanges then
    if !env.confirm then
      (s, [.confirm (js "You have unsaved changes. Create new document anyway?")])
    else
      (clear, [.confirm (js "You have unsaved changes. Create new document anyway?"),
               .focusEditor])
  else (clear, [.focusEditor])

/-- The tail of `saveDocument` from the call of `writeTextFile` on, with the
calls `evs` made before it. -/
def saveWrite (s : State) (env : Env) (filePath content : JSString) (evs : List Event) :
    State × List Event :=
  match env.writeTextFile filePath content with
  | .ok _ =>
    (markAsSaved { s with currentFilePath := some filePath },
     evs ++ [.writeTextFile filePath content])
  | .error err =>
    (s, evs ++ [.writeTextFile filePath content, .consoleError err,
                .alert (js "Failed to save file: " ++ err.text)])

/-- The function `saveDocument`. -/
def saveDocument (s : State) (env : Env) : State × List Event :=
  if trim s.editorValue = [] ∧ truthy s.currentFilePath = false then
    (s, [.alert (js "Cannot save an empty document.")])
  else
    let content := s.editorValue
    match s.currentFilePath with
    | some (c :: cs) => saveWrite s env (c :: cs) content []
    | _ =>
      match env.saveDialog with
      | .ok (some (c :: cs)) => saveWrite s env (c :: cs) content [.saveDialog]
      | .ok _ => (s, [.saveDialog])
      | .error err =>
        (s, [.saveDialog, .consoleError err,
             .alert (js "Failed to save file: " ++ err.text)])

/-- The function `openDocument`. -/
def openDocument (s : State) (env : Env) : State × List Event :=
  match env.openDialog with
  | .ok (some (c :: cs)) =>
    match env.readTextFile (c :: cs) with
    | .ok content =>
      (markAsSaved (updateCounts
         { s with editorValue := normalizeNewlines content,
                  currentFilePath := some (c :: cs) }),
       [.openDialog, .readTextFile (c :: cs), .focusEditor])
    | .error err =>
      (s, [.openDialog, .readTextFile (c :: cs), .consoleError err,
           .alert (js "Failed to open file: " ++ err.text)])
  | .ok _ => (s, [.openDialog])
  | .error err =>
    (s, [.openDialog, .consoleError err,
         .alert (js "Failed to open file: " ++ err.text)])

/-- The function `handleZoom`. -/
def handleZoom (s : State) (event : KeyEvent) : State × List Event :=
  if event.ctrlKey then
    if event.key = js "=" ∨ event.key = js "+" then
      let currentSize := parseInt10 s.selectedFontSize.toStr
      let newSize := JSNum.min (currentSize.add (.int 2)) (.int 48)
      (applyFontSize (.num newSize) { s with fontSizeSelectValue := numToString newSize },
       [.preventDefault])
    else if event.key = js "-" then
      let currentSize := parseInt10 s.selectedFontSize.toStr
      let newSize := JSNum.max (currentSize.sub (.int 2)) (.int 12)
      (applyFontSize (.num newSize) { s with fontSizeSelectValue := numToString newSize },
       [.preventDefault])
    else (s, [])
  else (s, [])

/-- The callback of the autosave timer (`setInterval`, every 60000 ms). -/
def autosave (s : State) (env : Env) : State × List Event :=
  if s.hasUnsavedChanges && truthy s.currentFilePath then saveDocument s env
  else (s, [])

/-- The `input` listener of the editor, after the user's edit has made
`newText` the value that `editor.value` reads. -/
def editorInput (s : State) (newText : JSString) : State :=
  markAsUnsaved (updateCounts { s with editorValue := newText })

/-- The `change` listener of the font family selector, after the browser has
set the selector to the chosen option. -/
def fontFamilyChange (s : State) (value : JSString) : State × List Event :=
  (applyFontFamily value { s with fontFamilySelectValue := value }, [.focusEditor])

/-- The `change` listener of the font size selector, after the browser has
set the selector to the chosen option. -/
def fontSizeChange (s : State) (value : JSString) : State × List Event :=
  (applyFontSize (.str value) { s with fontSizeSelectValue := value }, [.focusEditor])

/-- The body of the `DOMContentLoaded` listener up to the registration of the
handlers.  `page` holds the DOM cells as the document declares them and the
`localStorage` of the origin; its module variables are overwritten by the
initial values of the source. -/
def startup (page : State) : State × List Event :=
  let s0 : State :=
    { page with
      sunHidden := true, moonHidden := false,
      currentFilePath := none, hasUnsavedChanges := false,
      selectedFontFamily := js "default", selectedFontSize := .str (js "18") }
  let s1 :=
    match s0.localStorage (js "unsavedContent") with
    | some (c :: cs) => updateCounts { s0 with editorValue := normalizeNewlines (c :: cs) }
    | _ => s0
  (updateCounts (loadPreferences s1), [.focusEditor])

/-! ## The renderer as a transition system -/

/-- The events the renderer reacts to, each with the answers of the
capabilities its handler awaits. -/
inductive Action where
  | input (newText : JSString)
  | newDoc (env : Env)
  | save (env : Env)
  | openDoc (env : Env)
  | timer (env : Env)
  | keydown (event : KeyEvent)
  | themeToggle
  | fontFamily (value : JSString)
  | fontSize (value : JSString)
  | reloadPreferences

/-- One reaction of the renderer. -/
def step (s : State) : Action → State
  | .input t => editorInput s t
  | .newDoc env => (newDocument s env).1
  | .save env => (saveDocument s env).1
  | .openDoc env => (openDocument s env).1
  | .timer env => (autosave s env).1
  | .keydown ev => (handleZoom s ev).1
  | .themeToggle => toggleTheme s
  | .fontFamily v => (fontFamilyChange s v).1
  | .fontSize v => (fontSizeChange s v).1
  | .reloadPreferences => loadPreferences s

/-- The state after a sequence of reactions. -/
def run (s : State) (acts : List Action) : State := acts.foldl step s

/-- The write calls of a list of capability calls, in order. -/
def writes : List Event → List (JSString × JSString)
  | [] => []
  | .writeTextFile p c :: evs => (p, c) :: writes evs
  | _ :: evs => writes evs

/-- A page with every cell empty and nothing stored. -/
def blankPage : State :=
  { editorValue := [], currentFilePath := none, hasUnsavedChanges := false,
    selectedFontFamily := [], selectedFontSize := .str [],
    localStorage := fun _ => none,
    wordCountText := [], charCountText := [], saveStatusText := [],
    saveStatusUnsaved := false, fontFamilySelectValue := [], fontSizeSelectValue := [],
    editorFontFamily := [], editorFontSize := [],
    bodyDarkTheme := true, bodyLightTheme := false, sunHidden := false,
    moonHidden := false }

/-- A dirty document with the text `text` and no bound path. -/
def unsavedText (text : JSString) : State :=
  { blankPage with editorValue := text, hasUnsavedChanges := true }

/-- A dirty document with the text `draft`, bound to the path `old.txt`. -/
def dirtyDraft : State :=
  { blankPage with
    editorValue := js "draft", hasUnsavedChanges := true,
    currentFilePath := some (js "old.txt") }

/-- Capabilities that let the user pick `path` in either dialog, write
successfully and read `content`. -/
def pickEnv (path content : JSString) : Env :=
  { confirm := true, saveDialog := .ok (some path), openDialog := .ok (some path),
    writeTextFile := fun _ _ => .ok (), readTextFile := fun _ => .ok content }

/-- Capabilities whose dialogs are cancelled and whose file accesses fail
with the error `err`. -/
def failEnv (err : JSErr) : Env :=
  { confirm := false, saveDialog := .ok none, openDialog := .ok none,
    writeTextFile := fun _ _ => .error err, readTextFile := fun _ => .error err }

/-- An error with the message `disk full`. -/
def diskFull : JSErr := { message := some (js "disk full"), asString := js "Error: disk full" }

/-- Capabilities whose open dialog returns `notes.txt` and whose read fails. -/
def readFailEnv : Env := { failEnv diskFull with openDialog := .ok (some (js "notes.txt")) }

/-- Capabilities whose save dialog returns `notes.txt` and whose write fails. -/
def writeFailEnv : Env := { failEnv diskFull with saveDialog := .ok (some (js "notes.txt")) }

/-- The value is an integer of [12,48]: such a number, or a string that is
exactly the decimal form of the integer `parseInt` reads from it, that
integer being in [12,48]. -/
def sizeInRange : JSVal → Bool
  | .num (.int n) => decide (12 ≤ n) && decide (n ≤ 48)
  | .num .nan => false
  | .str s =>
    match parseInt10 s with
    | .int n => decide (12 ≤ n) && decide (n ≤ 48) && decide (s = numToString (.int n))
    | .nan => false

/-- The stored `fontSize` preference, when present, is an integer of [12,48]. -/
def StoredSizeOk (ls : JSString → Option JSString) : Prop :=
  ∀ v, ls (js "fontSize") = some v → sizeInRange (.str v) = true

/-- The current font size is an integer of [12,48], and so is the stored
preference when present. -/
def SizeInv (s : State) : Prop :=
  sizeInRange s.selectedFontSize = true ∧ StoredSizeOk s.localStorage

/-- A page whose store holds the `fontSize` preference `100`. -/
def page100 : State :=
  { blankPage with localStorage := setItem (fun _ => none) (js "fontSize") (js "100") }

/-- A state whose current font size is the number `n`. -/
def sized (n : Int) : State := { blankPage with selectedFontSize := .num (.int n) }

/-! ## The specification's word count -/

/-- Counts the maximal runs of non-white-space code units: a run starts at
every non-white-space unit that is the first unit or follows a white-space
unit.  `prevWs` tells whether the scan stands at the start of the text or
just after a white-space unit. -/
def runsFrom (prevWs : Bool) : JSString → Nat
  | [] => 0
  | c :: cs =>
    if isWhiteSpace c then runsFrom true cs
    else (if prevWs then 1 else 0) + runsFrom false cs

/-- The number of maximal runs of non-white-space code units of a text. -/
def countRuns (t : JSString) : Nat := runsFrom true t

/-! ## Lemmas on the word count -/

/-- Counts the separator matches met by `splitLoop`. -/
def sepRuns (inSep : Bool) : JSString → Nat
  | [] => 0
  | c :: cs =>
    if isWhiteSpace c then (if inSep then 0 else 1) + sepRuns true cs
    else sepRuns false cs

/-- Whether a scan ends inside white space. -/
def endsInWs (prevWs : Bool) : JSString → Bool
  | [] => prevWs
  | c :: cs => endsInWs (isWhiteSpace c) cs

theorem splitLoop_length (l : JSString) :
    ∀ (cur : JSString) (b : Bool), (splitLoop cur b l).length = sepRuns b l + 1 := by
  induction l with
  | nil => intro cur b; simp [splitLoop, sepRuns]
  | cons c cs ih =>
    intro cur b
    by_cases hc : isWhiteSpace c = true
    · cases b <;> simp [splitLoop, sepRuns, hc, ih]
      omega
    · simp [splitLoop, sepRuns, hc, ih]

theorem runs_balance (l : JSString) :
    ∀ b : Bool, runsFrom b l + (if endsInWs b l then 1 else 0)
      = sepRuns b l + (if b then 1 else 0) := by
  induction l with
  | nil => intro b; cases b <;> simp [runsFrom, sepRuns, endsInWs]
  | cons c cs ih =>
    intro b
    by_cases hc : isWhiteSpace c = true
    · have h := ih true
      cases b <;> simp [runsFrom, sepRuns, endsInWs, hc] at h ⊢ <;> omega
    · have h := ih false
      cases b <;> simp [runsFrom, sepRuns, endsInWs, hc] at h ⊢ <;> omega

theorem runsFrom_dropWhile (l : JSString) :
    runsFrom true (l.dropWhile isWhiteSpace) = runsFrom true l := by
  induction l with
  | nil => rfl
  | cons c cs ih =>
    by_cases hc : isWhiteSpace c = true
    · simp [List.dropWhile, runsFrom, hc, ih]
    · simp [List.dropWhile, hc]

theorem runsFrom_append_ws (l : JSString) (c : Nat) (hc : isWhiteSpace c = true) :
    ∀ b : Bool, runsFrom b (l ++ [c]) = runsFrom b l := by
  induction l with
  | nil => intro b; simp [runsFrom, hc]
  | cons d ds ih =>
    intro b
    by_cases hd : isWhiteSpace d = true
    · simp [runsFrom, hd, ih]
    · simp [runsFrom, hd, ih]

theorem runsFrom_rdropWhile (l : JSString) (b : Bool) :
    runsFrom b (l.rdropWhile isWhiteSpace) = runsFrom b l := by
  induction l using List.reverseRecOn with
  | nil => simp
  | append_singleton l c ih =>
    by_cases hc : isWhiteSpace c = true
    · rw [List.rdropWhile_concat_pos _ _ _ hc, ih, runsFrom_append_ws l c hc]
    · rw [List.rdropWhile_concat_neg _ _ _ hc]

theorem countRuns_trim (t : JSString) : countRuns (trim t) = countRuns t := by
  unfold countRuns trim
  rw [runsFrom_rdropWhile, runsFrom_dropWhile]

theorem endsInWs_append (l : JSString) (c : Nat) :
    ∀ b : Bool, endsInWs b (l ++ [c]) = isWhiteSpace c := by
  induction l with
  | nil => intro b; simp [endsInWs]
  | cons d ds ih => intro b; simp [endsInWs, ih]

theorem endsInWs_rdropWhile (l : JSString) (h : l.rdropWhile isWhiteSpace ≠ []) :
    endsInWs true (l.rdropWhile isWhiteSpace) = false := by
  induction l using List.reverseRecOn with
  | nil => simp at h
  | append_singleton l c ih =>
    by_cases hc : isWhiteSpace c = true
    · rw [List.rdropWhile_concat_pos _ _ _ hc] at h ⊢
      exact ih h
    · rw [List.rdropWhile_concat_neg _ _ _ hc, endsInWs_append]
      simpa using hc

theorem dropWhile_head (l : JSString) (c : Nat) (r : JSString)
    (h : l.dropWhile isWhiteSpace = c :: r) : isWhiteSpace c = false := by
  induction l with
  | nil => simp at h
  | cons d ds ih =>
    by_cases hd : isWhiteSpace d = true
    · simp [List.dropWhile, hd] at h; exact ih h
    · simp [List.dropWhile, hd] at h
      rw [← h.1]; simpa using hd

/-- A trimmed text that is not empty starts with a non-white-space unit. -/
theorem trim_head (t : JSString) (c : Nat) (cs : JSString) (h : trim t = c :: cs) :
    isWhiteSpace c = false := by
  have hp : trim t <+: t.dropWhile isWhiteSpace := List.rdropWhile_prefix _ _
  obtain ⟨r, hr⟩ := hp
  rw [h] at hr
  exact dropWhile_head t c (cs ++ r) (by simpa using hr.symm)

theorem sepRuns_head (c : Nat) (cs : JSString) (hc : isWhiteSpace c = false) (b : Bool) :
    sepRuns b (c :: cs) = sepRuns false cs := by
  simp [sepRuns, hc]

/-- On a text whose trimmed form is not empty, the split of the trimmed form
has as many pieces as the text has maximal runs of non-white-space units. -/
theorem split_trim_length (t : JSString) (h : trim t ≠ []) :
    (splitWhiteSpace (trim t)).length = countRuns t := by
  rw [← countRuns_trim t]
  have hb := runs_balance (trim t) true
  have he : endsInWs true (trim t) = false := endsInWs_rdropWhile _ h
  unfold splitWhiteSpace countRuns
  rw [splitLoop_length]
  obtain ⟨c, cs, hcs⟩ := List.exists_cons_of_ne_nil h
  have hc := trim_head t c cs hcs
  rw [hcs] at hb he ⊢
  rw [sepRuns_head c cs hc] at hb ⊢
  simp [he] at hb
  omega

theorem countRuns_of_trim_nil (t : JSString) (h : trim t = []) : countRuns t = 0 := by
  rw [← countRuns_trim t, h]; rfl

/-- A text without a carriage return is its own normalisation. -/
theorem normalizeNewlines_of_no_cr (l : JSString) (h : 0x0D ∉ l) :
    normalizeNewlines l = l := by
  unfold normalizeNewlines
  induction l with
  | nil => rfl
  | cons c cs ih =>
    have hc : c ≠ 0x0D := fun hc => h (by simp [hc])
    have hcs : 0x0D ∉ cs := fun hm => h (List.mem_cons_of_mem _ hm)
    simp [normalizeLoop, hc, ih hcs]

/-- The normalisation of a text holds no carriage return. -/
theorem normalizeLoop_no_cr (l : JSString) : ∀ b : Bool, 0x0D ∉ normalizeLoop b l := by
  induction l with
  | nil => intro b; simp [normalizeLoop]
  | cons c cs ih =>
    intro b
    unfold normalizeLoop
    split
    · simpa using ih true
    · split
      · exact ih false
      · rename_i hc _
        simp only [List.mem_cons, not_or]
        exact ⟨fun h => hc h.symm, ih false⟩

/-! ## Theorems -/

/-- C1: the word count of `updateCounts` is 0 exactly when the trimmed text is
empty, and it always equals the number of maximal runs of non-white-space
characters of the text (which is 0 for a text that trims to the empty
string); `updateCounts` shows that count of the editor's text. -/
theorem wordCount_spec (s : State) (t : JSString) :
    (wordCount t = 0 ↔ trim t = []) ∧ wordCount t = countRuns t
    ∧ (updateCounts s).wordCountText
        = js "Words: " ++ numToString (.int (wordCount s.editorValue)) := by
  refine ⟨?_, ?_, rfl⟩
  · by_cases h : trim t = []
    · simp [wordCount, h]
    · have hp : 0 < (splitWhiteSpace (trim t)).length := by
        unfold splitWhiteSpace; rw [splitLoop_length]; omega
      simp only [wordCount, h, if_false, iff_false]
      omega
  · by_cases h : trim t = []
    · simp [wordCount, h, countRuns_of_trim_nil t h]
    · simp only [wordCount, h, if_false]
      exact split_trim_length t h

/-- C2, as stated, fails: on a text of one space (not empty, but empty once
trimmed) with no bound path, `saveDocument` shows the validation notice and
stops: the dialog that would return a path is not shown, nothing is written,
the path stays unbound and the dirty flag stays set. -/
theorem saveDocument_space_only_not_saved :
    (unsavedText (js " ")).editorValue ≠ []
    ∧ (pickEnv (js "notes.txt") []).saveDialog = .ok (some (js "notes.txt"))
    ∧ (pickEnv (js "notes.txt") []).writeTextFile (js "notes.txt") (js " ") = .ok ()
    ∧ (saveDocument (unsavedText (js " "))
        (pickEnv (js "notes.txt") [])).1.currentFilePath = none
    ∧ (saveDocument (unsavedText (js " "))
        (pickEnv (js "notes.txt") [])).1.hasUnsavedChanges = true
    ∧ (saveDocument (unsavedText (js " "))
        (pickEnv (js "notes.txt") [])).2 = [.alert (js "Cannot save an empty document.")] := by
  refine ⟨by decide, rfl, rfl, by decide, by decide, by decide⟩

/-- C2, amended: on a state with no bound path, for every text whose trimmed
form is not empty, `saveDocument` with the save dialog returning a path `P`
and the write succeeding ends with the same text, the path `P` bound and the
dirty flag clear, and its capability calls are the save dialog followed by
exactly one write, of the text to `P`; for every text whose trimmed form is
empty (the empty text and every text made of white space only) it leaves
the state as it is and its only call is the alert
"Cannot save an empty document.": no save dialog, no write. -/
theorem saveDocument_unbound_spec (s : State) (env : Env) (P : JSString)
    (hpath : s.currentFilePath = none) :
    (trim s.editorValue ≠ [] → P ≠ [] → env.saveDialog = .ok (some P) →
      env.writeTextFile P s.editorValue = .ok () →
        (saveDocument s env).1.editorValue = s.editorValue
        ∧ (saveDocument s env).1.currentFilePath = some P
        ∧ (saveDocument s env).1.hasUnsavedChanges = false
        ∧ (saveDocument s env).2 = [.saveDialog, .writeTextFile P s.editorValue]
        ∧ writes (saveDocument s env).2 = [(P, s.editorValue)])
    ∧ (trim s.editorValue = [] →
        saveDocument s env = (s, [.alert (js "Cannot save an empty document.")])
        ∧ Event.saveDialog ∉ (saveDocument s env).2
        ∧ writes (saveDocument s env).2 = []) := by
  constructor
  · intro htext hP hdialog hwrite
    obtain ⟨c, cs, rfl⟩ := List.exists_cons_of_ne_nil hP
    simp [saveDocument, saveWrite, htext, hpath, hdialog, hwrite, markAsSaved, writes]
  · intro htext
    have h : saveDocument s env = (s, [.alert (js "Cannot save an empty document.")]) := by
      simp [saveDocument, htext, hpath, truthy]
    rw [h]
    simp [writes]

/-- Witness of C2 amended: the text `hello` is saved to the chosen path, the
text of a space, a tab and a line feed is not. -/
theorem saveDocument_unbound_spec_witness :
    ((saveDocument (unsavedText (js "hello"))
        (pickEnv (js "notes.txt") [])).1.currentFilePath = some (js "notes.txt")
      ∧ (saveDocument (unsavedText (js "hello"))
        (pickEnv (js "notes.txt") [])).1.hasUnsavedChanges = false
      ∧ writes (saveDocument (unsavedText (js "hello"))
        (pickEnv (js "notes.txt") [])).2 = [(js "notes.txt", js "hello")])
    ∧ saveDocument (unsavedText [0x20, 0x09, 0x0A]) (pickEnv (js "notes.txt") [])
        = (unsavedText [0x20, 0x09, 0x0A], [.alert (js "Cannot save an empty document.")]) :=
  have h := (saveDocument_unbound_spec (unsavedText (js "hello"))
    (pickEnv (js "notes.txt") []) (js "notes.txt") rfl).1 (by decide) (by decide) rfl rfl
  ⟨⟨h.2.1, h.2.2.1, h.2.2.2.2⟩,
   ((saveDocument_unbound_spec (unsavedText [0x20, 0x09, 0x0A])
      (pickEnv (js "notes.txt") []) (js "notes.txt") rfl).2 (by decide)).1⟩

/-- C3: `saveDocument` on a state whose text is empty and whose path is unbound
leaves the whole state as it is (text, path and dirty flag included) and its
only capability call is the alert "Cannot save an empty document.": neither
the save dialog nor the write is invoked. -/
theorem saveDocument_empty_unbound (s : State) (env : Env)
    (htext : s.editorValue = []) (hpath : s.currentFilePath = none) :
    saveDocument s env = (s, [.alert (js "Cannot save an empty document.")])
    ∧ Event.saveDialog ∉ (saveDocument s env).2
    ∧ writes (saveDocument s env).2 = [] := by
  have h : saveDocument s env = (s, [.alert (js "Cannot save an empty document.")]) := by
    simp [saveDocument, htext, hpath, trim, truthy]
  rw [h]
  simp [writes]

/-- Witness of C3: the empty, unbound, dirty document. -/
theorem saveDocument_empty_unbound_witness :
    saveDocument (unsavedText []) (pickEnv (js "notes.txt") [])
      = (unsavedText [],
         [.alert (js "Cannot save an empty document.")]) :=
  (saveDocument_empty_unbound (unsavedText [])
    (pickEnv (js "notes.txt") []) rfl rfl).1

/-- C4, as stated, fails: opening the content `a`, CR, LF, `b` leaves the text
`a`, LF, `b` in the editor, not the content read. -/
theorem openDocument_crlf_not_verbatim :
    (pickEnv (js "notes.txt") [0x61, 0x0D, 0x0A, 0x62]).openDialog = .ok (some (js "notes.txt"))
    ∧ (pickEnv (js "notes.txt") [0x61, 0x0D, 0x0A, 0x62]).readTextFile (js "notes.txt")
        = .ok [0x61, 0x0D, 0x0A, 0x62]
    ∧ (openDocument dirtyDraft
        (pickEnv (js "notes.txt") [0x61, 0x0D, 0x0A, 0x62])).1.editorValue = [0x61, 0x0A, 0x62]
    ∧ (openDocument dirtyDraft
        (pickEnv (js "notes.txt") [0x61, 0x0D, 0x0A, 0x62])).1.editorValue
        ≠ [0x61, 0x0D, 0x0A, 0x62] := by
  refine ⟨rfl, rfl, by decide, by decide⟩

/-- C4, amended: from every prior state, `openDocument` with the open dialog
returning a path `P` and the read of `P` returning `C` ends with the path `P`
bound, the dirty flag clear and, as text, `C` with its line breaks
normalised (every CR LF pair and every other CR replaced by LF), which is
`C` itself when `C` holds no CR; its capability calls are the dialog, the
read and the focus of the editor, so no confirmation is requested. -/
theorem openDocument_success (s : State) (env : Env) (P C : JSString)
    (hP : P ≠ []) (hdialog : env.openDialog = .ok (some P))
    (hread : env.readTextFile P = .ok C) :
    (openDocument s env).1.editorValue = normalizeNewlines C
    ∧ (0x0D ∉ C → (openDocument s env).1.editorValue = C)
    ∧ (openDocument s env).1.currentFilePath = some P
    ∧ (openDocument s env).1.hasUnsavedChanges = false
    ∧ (openDocument s env).2 = [.openDialog, .readTextFile P, .focusEditor]
    ∧ ∀ m, Event.confirm m ∉ (openDocument s env).2 := by
  obtain ⟨c, cs, rfl⟩ := List.exists_cons_of_ne_nil hP
  have hv : (openDocument s env).1.editorValue = normalizeNewlines C := by
    simp [openDocument, hdialog, hread, markAsSaved, updateCounts]
  refine ⟨hv, fun hcr => ?_, ?_⟩
  · rw [hv]; exact normalizeNewlines_of_no_cr C hcr
  · simp [openDocument, hdialog, hread, markAsSaved, updateCounts]

/-- Witness of C4 amended: a dirty document bound to another path is replaced
by the content `hello`. -/
theorem openDocument_success_witness :
    (openDocument dirtyDraft
        (pickEnv (js "notes.txt") (js "hello"))).1.editorValue = js "hello"
    ∧ (openDocument dirtyDraft
        (pickEnv (js "notes.txt") (js "hello"))).1.currentFilePath = some (js "notes.txt")
    ∧ (openDocument dirtyDraft
        (pickEnv (js "notes.txt") (js "hello"))).1.hasUnsavedChanges = false :=
  have h := openDocument_success
    dirtyDraft
    (pickEnv (js "notes.txt") (js "hello")) (js "notes.txt") (js "hello") (by decide) rfl rfl
  ⟨h.2.1 (by decide), h.2.2.1, h.2.2.2.1⟩

/-- C5: `newDocument` shows the confirmation prompt exactly when the dirty flag
is set; when the flag is clear or the prompt is confirmed the text is empty,
the path unbound and the dirty flag clear afterwards; when the flag is set
and the prompt is declined the state is unchanged. -/
theorem newDocument_spec (s : State) (env : Env) :
    ((∃ m, Event.confirm m ∈ (newDocument s env).2) ↔ s.hasUnsavedChanges = true)
    ∧ (s.hasUnsavedChanges = false ∨ env.confirm = true →
        (newDocument s env).1.editorValue = []
        ∧ (newDocument s env).1.currentFilePath = none
        ∧ (newDocument s env).1.hasUnsavedChanges = false)
    ∧ (s.hasUnsavedChanges = true ∧ env.confirm = false → (newDocument s env).1 = s) := by
  cases hd : s.hasUnsavedChanges <;> cases hc : env.confirm <;>
    simp [newDocument, hd, hc, markAsSaved, updateCounts, normalizeNewlines, normalizeLoop]

/-- Witness of C5: a dirty document, confirmed and declined. -/
theorem newDocument_spec_witness :
    (newDocument dirtyDraft
        (pickEnv [] [])).1.editorValue = []
    ∧ (newDocument dirtyDraft
        (failEnv ⟨none, []⟩)).1
      = dirtyDraft :=
  ⟨((newDocument_spec _ (pickEnv [] [])).2.1 (Or.inr rfl)).1,
   (newDocument_spec _ (failEnv ⟨none, []⟩)).2.2 ⟨rfl, rfl⟩⟩

/-! ### Autosave -/

theorem writes_append (a b : List Event) : writes (a ++ b) = writes a ++ writes b := by
  induction a with
  | nil => rfl
  | cons e es ih => cases e <;> simp [writes, ih]

/-- The tail of `saveDocument` invokes the write once, on its arguments. -/
theorem saveWrite_writes (s : State) (env : Env) (p c : JSString) (evs : List Event) :
    writes (saveWrite s env p c evs).2 = writes evs ++ [(p, c)] := by
  unfold saveWrite
  cases env.writeTextFile p c <;> simp [writes_append, writes]

theorem saveWrite_mem_saveDialog (s : State) (env : Env) (p c : JSString) (evs : List Event) :
    Event.saveDialog ∈ (saveWrite s env p c evs).2 ↔ Event.saveDialog ∈ evs := by
  unfold saveWrite
  cases env.writeTextFile p c <;> simp

/-- C6: when the autosave timer fires, the write capability is invoked exactly
when the dirty flag is set and a path is bound, and then it is invoked once,
with the bound path and the current text; the save dialog is never invoked. -/
theorem autosave_spec (s : State) (env : Env) :
    (writes (autosave s env).2 ≠ [] ↔
        (s.hasUnsavedChanges = true ∧ truthy s.currentFilePath = true))
    ∧ (∀ p, s.hasUnsavedChanges = true → s.currentFilePath = some p → p ≠ [] →
        writes (autosave s env).2 = [(p, s.editorValue)])
    ∧ Event.saveDialog ∉ (autosave s env).2 := by
  cases hd : s.hasUnsavedChanges
  · simp [autosave, hd, writes]
  · rcases hp : s.currentFilePath with _ | _ | ⟨c, cs⟩
    · simp [autosave, hd, hp, truthy, writes]
    · simp [autosave, hd, hp, truthy, writes]
    · simp [autosave, hd, hp, truthy, saveDocument, saveWrite_writes,
        saveWrite_mem_saveDialog, writes]

/-- Witness of C6: a dirty document without a path is not written, a dirty
document bound to `old.txt` is written there, also when the dialog would
return another path. -/
theorem autosave_spec_witness :
    writes (autosave (unsavedText (js "hello")) (pickEnv (js "notes.txt") [])).2 = []
    ∧ writes (autosave dirtyDraft (pickEnv (js "notes.txt") [])).2
        = [(js "old.txt", js "draft")] :=
  ⟨by
    have h := (autosave_spec (unsavedText (js "hello")) (pickEnv (js "notes.txt") [])).1
    by_contra hne
    exact absurd (h.1 hne).2 (by decide),
   (autosave_spec dirtyDraft (pickEnv (js "notes.txt") [])).2.1 (js "old.txt") rfl rfl
     (by decide)⟩

/-! ### Failures -/

/-- C7: from every prior state, `openDocument` with its dialog cancelled or its
read failing, and `saveDocument` with its dialog cancelled or its write
failing, leave the whole state as it was (text, bound path and dirty flag
included; a path picked before a failed write is not bound), and a read or
write failure raises the alert that carries the error's text. -/
theorem failure_keeps_state (s : State) (env : Env) :
    (∀ r, env.openDialog = .ok r → truthy r = false → (openDocument s env).1 = s)
    ∧ (∀ p err, p ≠ [] → env.openDialog = .ok (some p) → env.readTextFile p = .error err →
        (openDocument s env).1 = s
        ∧ Event.alert (js "Failed to open file: " ++ err.text) ∈ (openDocument s env).2)
    ∧ (∀ r, Event.saveDialog ∈ (saveDocument s env).2 → env.saveDialog = .ok r →
        truthy r = false → (saveDocument s env).1 = s)
    ∧ (∀ p c err, Event.writeTextFile p c ∈ (saveDocument s env).2 →
        env.writeTextFile p c = .error err →
        (saveDocument s env).1 = s
        ∧ Event.alert (js "Failed to save file: " ++ err.text) ∈ (saveDocument s env).2) := by
  refine ⟨?_, ?_, ?_, ?_⟩
  · intro r hr ht
    rcases r with _ | _ | ⟨c, cs⟩
    · simp [openDocument, hr]
    · simp [openDocument, hr]
    · simp [truthy] at ht
  · intro p err hp hd hr
    obtain ⟨c, cs, rfl⟩ := List.exists_cons_of_ne_nil hp
    simp [openDocument, hd, hr]
  · intro r _ hr ht
    unfold saveDocument
    split
    · rfl
    · rcases hp : s.currentFilePath with _ | _ | ⟨c, cs⟩
      · rcases r with _ | _ | ⟨c, cs⟩
        · simp [hr]
        · simp [hr]
        · simp [truthy] at ht
      · rcases r with _ | _ | ⟨c, cs⟩
        · simp [hr]
        · simp [hr]
        · simp [truthy] at ht
      · have hmem : Event.saveDialog ∈ (saveDocument s env).2 := by assumption
        simp [saveDocument, hp, truthy, saveWrite_mem_saveDialog] at hmem
  · intro p c err hmem hw
    have key : ∀ (q d : JSString) (evs : List Event),
        Event.writeTextFile p c ∈ (saveWrite s env q d evs).2 →
        (∀ a b, Event.writeTextFile a b ∉ evs) →
        (saveWrite s env q d evs).1 = s
        ∧ Event.alert (js "Failed to save file: " ++ err.text) ∈ (saveWrite s env q d evs).2 := by
      intro q d evs hm hevs
      have hqd : q = p ∧ d = c := by
        unfold saveWrite at hm
        cases hq : env.writeTextFile q d <;> simp [hq, hevs] at hm <;> simp [hm]
      obtain ⟨rfl, rfl⟩ := hqd
      simp [saveWrite, hw]
    unfold saveDocument at hmem ⊢
    split at hmem
    · simp at hmem
    · split
      · simp_all
      · rcases hp : s.currentFilePath with _ | _ | ⟨c', cs'⟩
        · rw [hp] at hmem
          rcases hsd : env.saveDialog with e | _ | _ | ⟨c'', cs''⟩
          · simp [hsd] at hmem
          · simp [hsd] at hmem
          · simp [hsd] at hmem
          · simp only [hsd] at hmem ⊢
            exact key _ _ _ hmem (by simp)
        · rw [hp] at hmem
          rcases hsd : env.saveDialog with e | _ | _ | ⟨c'', cs''⟩
          · simp [hsd] at hmem
          · simp [hsd] at hmem
          · simp [hsd] at hmem
          · simp only [hsd] at hmem ⊢
            exact key _ _ _ hmem (by simp)
        · rw [hp] at hmem
          simp only at hmem ⊢
          exact key _ _ _ hmem (by simp)

/-- Witness of C7: a cancelled open and a failed read keep a dirty bound
document, a cancelled save and a failed write after picking `notes.txt` keep
a dirty unbound one (its path stays unbound). -/
theorem failure_keeps_state_witness :
    (openDocument dirtyDraft (failEnv diskFull)).1 = dirtyDraft
    ∧ (openDocument dirtyDraft readFailEnv).1 = dirtyDraft
    ∧ (saveDocument (unsavedText (js "hello")) (failEnv diskFull)).1 = unsavedText (js "hello")
    ∧ (saveDocument (unsavedText (js "hello")) writeFailEnv).1 = unsavedText (js "hello")
    ∧ Event.alert (js "Failed to save file: disk full")
        ∈ (saveDocument (unsavedText (js "hello")) writeFailEnv).2 :=
  ⟨(failure_keeps_state dirtyDraft (failEnv diskFull)).1 none rfl rfl,
   ((failure_keeps_state dirtyDraft readFailEnv).2.1 (js "notes.txt") diskFull
      (by decide) rfl rfl).1,
   (failure_keeps_state (unsavedText (js "hello")) (failEnv diskFull)).2.2.1 none
      (by decide) rfl rfl,
   ((failure_keeps_state (unsavedText (js "hello")) writeFailEnv).2.2.2
      (js "notes.txt") (js "hello") diskFull (by decide) rfl).1,
   ((failure_keeps_state (unsavedText (js "hello")) writeFailEnv).2.2.2
      (js "notes.txt") (js "hello") diskFull (by decide) rfl).2⟩

/-! ### Font size -/

/-- Printing an integer of [12,48] and reading it back with `parseInt`. -/
theorem parseInt10_numToString (n : Int) (hlo : 12 ≤ n) (hhi : n ≤ 48) :
    parseInt10 (numToString (.int n)) = .int n := by
  interval_cases n <;> decide

theorem sizeInRange_num (n : Int) (hlo : 12 ≤ n) (hhi : n ≤ 48) :
    sizeInRange (.num (.int n)) = true := by
  simp [sizeInRange, hlo, hhi]

theorem sizeInRange_str_numToString (n : Int) (hlo : 12 ≤ n) (hhi : n ≤ 48) :
    sizeInRange (.str (numToString (.int n))) = true := by
  simp [sizeInRange, parseInt10_numToString n hlo hhi, hlo, hhi]

/-- The values `sizeInRange` accepts are the integers of [12,48], as numbers
or as their decimal strings, and no other. -/
theorem sizeInRange_iff (v : JSVal) :
    sizeInRange v = true ↔
      ∃ n : Int, 12 ≤ n ∧ n ≤ 48 ∧ (v = .num (.int n) ∨ v = .str (numToString (.int n))) := by
  constructor
  · intro h
    cases v with
    | str t =>
      simp only [sizeInRange] at h
      split at h
      · next n hn =>
        simp only [Bool.and_eq_true, decide_eq_true_eq] at h
        exact ⟨n, h.1.1, h.1.2, Or.inr (congrArg JSVal.str h.2)⟩
      · cases h
    | num m =>
      cases m with
      | nan => simp [sizeInRange] at h
      | int n =>
        simp only [sizeInRange, Bool.and_eq_true, decide_eq_true_eq] at h
        exact ⟨n, h.1, h.2, Or.inl rfl⟩
  · rintro ⟨n, hlo, hhi, rfl | rfl⟩
    · exact sizeInRange_num n hlo hhi
    · exact sizeInRange_str_numToString n hlo hhi

/-- Strings that only start with an integer of [12,48] are not font sizes in
range: `48.9`, `12e5`, `20px` and ` +13abc` are rejected, `24` is accepted. -/
theorem sizeInRange_exact :
    sizeInRange (.str (js "48.9")) = false ∧ sizeInRange (.str (js "12e5")) = false
    ∧ sizeInRange (.str (js "20px")) = false ∧ sizeInRange (.str (js " +13abc")) = false
    ∧ sizeInRange (.str (js "24")) = true := by
  decide

/-- What `handleZoom` reads from a font size in range. -/
theorem sizeInRange_parse (v : JSVal) (h : sizeInRange v = true) :
    ∃ n : Int, parseInt10 v.toStr = .int n ∧ 12 ≤ n ∧ n ≤ 48 := by
  obtain ⟨n, hlo, hhi, rfl | rfl⟩ := (sizeInRange_iff v).1 h
  · exact ⟨n, parseInt10_numToString n hlo hhi, hlo, hhi⟩
  · exact ⟨n, parseInt10_numToString n hlo hhi, hlo, hhi⟩

/-- The string form of a font size in range is in range. -/
theorem sizeInRange_toStr (v : JSVal) (h : sizeInRange v = true) :
    sizeInRange (.str v.toStr) = true := by
  obtain ⟨n, hlo, hhi, rfl | rfl⟩ := (sizeInRange_iff v).1 h
  · exact sizeInRange_str_numToString n hlo hhi
  · exact sizeInRange_str_numToString n hlo hhi

/-- The zoom-in branch of `handleZoom`. -/
theorem handleZoom_in (s : State) (event : KeyEvent) (hctrl : event.ctrlKey = true)
    (hk : event.key = js "=" ∨ event.key = js "+") :
    handleZoom s event =
      (applyFontSize
        (.num (JSNum.min ((parseInt10 s.selectedFontSize.toStr).add (.int 2)) (.int 48)))
        { s with fontSizeSelectValue :=
            numToString (JSNum.min ((parseInt10 s.selectedFontSize.toStr).add (.int 2)) (.int 48)) },
       [.preventDefault]) := by
  simp only [handleZoom, hctrl, hk, if_true]

/-- The zoom-out branch of `handleZoom`. -/
theorem handleZoom_out (s : State) (event : KeyEvent) (hctrl : event.ctrlKey = true)
    (hk : event.key = js "-") :
    handleZoom s event =
      (applyFontSize
        (.num (JSNum.max ((parseInt10 s.selectedFontSize.toStr).sub (.int 2)) (.int 12)))
        { s with fontSizeSelectValue :=
            numToString (JSNum.max ((parseInt10 s.selectedFontSize.toStr).sub (.int 2)) (.int 12)) },
       [.preventDefault]) := by
  have hne : ¬ (js "-" = js "=" ∨ js "-" = js "+") := by decide
  simp only [handleZoom, hctrl, hk, hne, if_true, if_false]

/-- C8: from a current font size `n` in [12,48] (the integer `handleZoom` reads
with `parseInt`), Ctrl with `+` or `=` makes `min (n + 2) 48` the current
size and Ctrl with `-` makes it `max (n - 2) 12`; the new size is in [12,48]
and it is what is assigned to the size selector and stored under
`fontSize`. -/
theorem handleZoom_clamps (s : State) (event : KeyEvent) (n : Int)
    (hcur : parseInt10 s.selectedFontSize.toStr = .int n) (hlo : 12 ≤ n) (hhi : n ≤ 48)
    (hctrl : event.ctrlKey = true) :
    (event.key = js "+" ∨ event.key = js "=" →
        (handleZoom s event).1.selectedFontSize = .num (.int (min (n + 2) 48))
        ∧ parseInt10 (handleZoom s event).1.selectedFontSize.toStr = .int (min (n + 2) 48)
        ∧ (handleZoom s event).1.fontSizeSelectValue = numToString (.int (min (n + 2) 48))
        ∧ (handleZoom s event).1.localStorage (js "fontSize")
            = some (numToString (.int (min (n + 2) 48)))
        ∧ 12 ≤ min (n + 2) 48 ∧ min (n + 2) 48 ≤ 48)
    ∧ (event.key = js "-" →
        (handleZoom s event).1.selectedFontSize = .num (.int (max (n - 2) 12))
        ∧ parseInt10 (handleZoom s event).1.selectedFontSize.toStr = .int (max (n - 2) 12)
        ∧ (handleZoom s event).1.fontSizeSelectValue = numToString (.int (max (n - 2) 12))
        ∧ (handleZoom s event).1.localStorage (js "fontSize")
            = some (numToString (.int (max (n - 2) 12)))
        ∧ 12 ≤ max (n - 2) 12 ∧ max (n - 2) 12 ≤ 48) := by
  constructor
  · intro hkey
    have hk : event.key = js "=" ∨ event.key = js "+" := hkey.symm
    have h1 : 12 ≤ min (n + 2) 48 := by omega
    have h2 : min (n + 2) 48 ≤ 48 := by omega
    have hp := parseInt10_numToString _ h1 h2
    rw [handleZoom_in s event hctrl hk, hcur]
    simp only [JSNum.add, JSNum.min, applyFontSize, setItem, if_true]
    refine ⟨?_, ?_, ?_, ?_, h1, h2⟩ <;> trivial
  · intro hkey
    have h1 : 12 ≤ max (n - 2) 12 := by omega
    have h2 : max (n - 2) 12 ≤ 48 := by omega
    have hp := parseInt10_numToString _ h1 h2
    rw [handleZoom_out s event hctrl hkey, hcur]
    simp only [JSNum.sub, JSNum.max, applyFontSize, setItem, if_true]
    refine ⟨?_, ?_, ?_, ?_, h1, h2⟩ <;> trivial

/-- Witness of C8: 48 zoomed in stays 48, 12 zoomed out stays 12. -/
theorem handleZoom_clamps_witness :
    (handleZoom (sized 48) { ctrlKey := true, key := js "+" }).1.selectedFontSize
        = .num (.int 48)
    ∧ (handleZoom (sized 12) { ctrlKey := true, key := js "-" }).1.selectedFontSize
        = .num (.int 12) :=
  ⟨((handleZoom_clamps (sized 48) { ctrlKey := true, key := js "+" } 48
      (by decide) (by decide) (by decide) rfl).1 (Or.inl rfl)).1,
   ((handleZoom_clamps (sized 12) { ctrlKey := true, key := js "-" } 12
      (by decide) (by decide) (by decide) rfl).2 rfl).1⟩

/-! ### Frame lemmas -/

theorem saveWrite_frame (s : State) (env : Env) (p c : JSString) (evs : List Event) :
    (saveWrite s env p c evs).1.localStorage = s.localStorage
    ∧ (saveWrite s env p c evs).1.selectedFontSize = s.selectedFontSize
    ∧ (saveWrite s env p c evs).1.editorValue = s.editorValue := by
  unfold saveWrite
  cases env.writeTextFile p c <;> simp [markAsSaved]

/-- The function `saveDocument` leaves the store, the font size and the text. -/
theorem saveDocument_frame (s : State) (env : Env) :
    (saveDocument s env).1.localStorage = s.localStorage
    ∧ (saveDocument s env).1.selectedFontSize = s.selectedFontSize
    ∧ (saveDocument s env).1.editorValue = s.editorValue := by
  unfold saveDocument
  split
  · simp
  · rcases s.currentFilePath with _ | _ | ⟨c, cs⟩
    · rcases env.saveDialog with e | _ | _ | ⟨c, cs⟩ <;> simp [saveWrite_frame]
    · rcases env.saveDialog with e | _ | _ | ⟨c, cs⟩ <;> simp [saveWrite_frame]
    · simp [saveWrite_frame]

/-- The autosave callback leaves the store, the font size and the text. -/
theorem autosave_frame (s : State) (env : Env) :
    (autosave s env).1.localStorage = s.localStorage
    ∧ (autosave s env).1.selectedFontSize = s.selectedFontSize
    ∧ (autosave s env).1.editorValue = s.editorValue := by
  unfold autosave
  split
  · exact saveDocument_frame s env
  · simp

/-- The function `openDocument` leaves the store and the font size. -/
theorem openDocument_frame (s : State) (env : Env) :
    (openDocument s env).1.localStorage = s.localStorage
    ∧ (openDocument s env).1.selectedFontSize = s.selectedFontSize := by
  unfold openDocument
  rcases env.openDialog with e | _ | _ | ⟨c, cs⟩
  · simp
  · simp
  · simp
  · cases h : env.readTextFile (c :: cs) <;> simp [h, markAsSaved, updateCounts]

/-- The function `newDocument` leaves the store and the font size. -/
theorem newDocument_frame (s : State) (env : Env) :
    (newDocument s env).1.localStorage = s.localStorage
    ∧ (newDocument s env).1.selectedFontSize = s.selectedFontSize := by
  unfold newDocument
  cases s.hasUnsavedChanges <;> cases env.confirm <;> simp [markAsSaved, updateCounts]

/-- The `input` listener sets the draft snapshot and nothing else of the
store, and leaves the font size. -/
theorem editorInput_frame (s : State) (t : JSString) :
    (editorInput s t).localStorage = setItem s.localStorage (js "unsavedContent") t
    ∧ (editorInput s t).selectedFontSize = s.selectedFontSize
    ∧ (editorInput s t).hasUnsavedChanges = true
    ∧ (editorInput s t).currentFilePath = s.currentFilePath
    ∧ (editorInput s t).editorValue = t := by
  unfold editorInput markAsUnsaved updateCounts
  cases s.hasUnsavedChanges <;> simp

/-- C10: an edit to the text `t` sets the dirty flag and stores exactly `t` as
the draft snapshot (key `unsavedContent`), from every prior state, and
leaves the bound path; `newDocument`, `openDocument`, `saveDocument` and the
autosave callback leave the whole store as it is, so after an edit followed
by a save or a new document, whatever their outcome, the stored draft is
still the edited text. -/
theorem draft_snapshot_frame (s : State) (t : JSString) (env : Env) :
    (editorInput s t).hasUnsavedChanges = true
    ∧ (editorInput s t).localStorage (js "unsavedContent") = some t
    ∧ (editorInput s t).currentFilePath = s.currentFilePath
    ∧ (editorInput s t).editorValue = t
    ∧ (newDocument s env).1.localStorage = s.localStorage
    ∧ (openDocument s env).1.localStorage = s.localStorage
    ∧ (saveDocument s env).1.localStorage = s.localStorage
    ∧ (autosave s env).1.localStorage = s.localStorage
    ∧ (saveDocument (editorInput s t) env).1.localStorage (js "unsavedContent") = some t
    ∧ (newDocument (editorInput s t) env).1.localStorage (js "unsavedContent") = some t := by
  have he := editorInput_frame s t
  have hs : (editorInput s t).localStorage (js "unsavedContent") = some t := by
    rw [he.1]; simp [setItem]
  refine ⟨he.2.2.1, hs, he.2.2.2.1, he.2.2.2.2, (newDocument_frame s env).1,
    (openDocument_frame s env).1, (saveDocument_frame s env).1, (autosave_frame s env).1, ?_, ?_⟩
  · rw [(saveDocument_frame _ env).1]; exact hs
  · rw [(newDocument_frame _ env).1]; exact hs

/-! ### The font size over runs -/

theorem storedSizeOk_setItem_other (ls : JSString → Option JSString) (k v : JSString)
    (hk : js "fontSize" ≠ k) (h : StoredSizeOk ls) : StoredSizeOk (setItem ls k v) := by
  intro w hw
  simp only [setItem, hk, if_false] at hw
  exact h w hw

theorem storedSizeOk_setItem_size (ls : JSString → Option JSString) (v : JSString)
    (h : sizeInRange (.str v) = true) : StoredSizeOk (setItem ls (js "fontSize") v) := by
  intro w hw
  simp only [setItem, if_true] at hw
  cases hw
  exact h

/-- The function `applyFontSize` on a value in range. -/
theorem applyFontSize_sizeInv (v : JSVal) (s : State) (hv : sizeInRange v = true) :
    SizeInv (applyFontSize v s) := by
  refine ⟨hv, ?_⟩
  apply storedSizeOk_setItem_size
  exact sizeInRange_toStr v hv

/-- The function `applyFontFamily` leaves the font size and its preference. -/
theorem applyFontFamily_sizeInv (f : JSString) (s : State) (h : SizeInv s) :
    SizeInv (applyFontFamily f s) :=
  ⟨h.1, storedSizeOk_setItem_other _ _ _ (by decide) h.2⟩

/-- The function `toggleTheme` leaves the font size and its preference. -/
theorem toggleTheme_sizeInv (s : State) (h : SizeInv s) : SizeInv (toggleTheme s) := by
  unfold toggleTheme
  split
  · exact ⟨h.1, storedSizeOk_setItem_other _ _ _ (by decide) h.2⟩
  · exact ⟨h.1, storedSizeOk_setItem_other _ _ _ (by decide) h.2⟩

theorem loadTheme_sizeInv (s : State) (h : SizeInv s) : SizeInv (loadTheme s) := by
  unfold loadTheme
  simp only
  split <;> split <;> exact h

theorem loadFontFamily_sizeInv (s : State) (h : SizeInv s) : SizeInv (loadFontFamily s) := by
  unfold loadFontFamily
  split
  · exact applyFontFamily_sizeInv _ _ h
  · exact h

theorem loadFontSize_sizeInv (s : State) (h : SizeInv s) : SizeInv (loadFontSize s) := by
  unfold loadFontSize
  split
  · next c cs hst =>
    apply applyFontSize_sizeInv
    exact h.2 _ hst
  · exact h

/-- The function `loadPreferences` keeps the font size in range when the
stored preference is. -/
theorem loadPreferences_sizeInv (s : State) (h : SizeInv s) : SizeInv (loadPreferences s) :=
  loadFontSize_sizeInv _ (loadFontFamily_sizeInv _ (loadTheme_sizeInv s h))

/-- The function `handleZoom` keeps the font size in range. -/
theorem handleZoom_sizeInv (s : State) (event : KeyEvent) (h : SizeInv s) :
    SizeInv (handleZoom s event).1 := by
  obtain ⟨n, hn, hlo, hhi⟩ := sizeInRange_parse _ h.1
  cases hctrl : event.ctrlKey
  · simpa [handleZoom, hctrl] using h
  · by_cases hk : event.key = js "=" ∨ event.key = js "+"
    · rw [handleZoom_in s event hctrl hk, hn]
      exact applyFontSize_sizeInv _ _ (sizeInRange_num _ (by omega) (by omega))
    · by_cases hm : event.key = js "-"
      · rw [handleZoom_out s event hctrl hm, hn]
        exact applyFontSize_sizeInv _ _ (sizeInRange_num _ (by omega) (by omega))
      · simpa [handleZoom, hctrl, hk, hm] using h

/-- Every reaction of the renderer keeps the font size in range, a change of
the size selector provided the chosen value is in range. -/
theorem step_sizeInv (s : State) (a : Action) (h : SizeInv s)
    (ha : ∀ v, a = .fontSize v → sizeInRange (.str v) = true) : SizeInv (step s a) := by
  cases a with
  | input t =>
    have hf := editorInput_frame s t
    refine ⟨by simpa [step, hf.2.1] using h.1, ?_⟩
    simp only [step, hf.1]
    exact storedSizeOk_setItem_other _ _ _ (by decide) h.2
  | newDoc env =>
    have hf := newDocument_frame s env
    exact ⟨by simpa [step, hf.2] using h.1, by simpa [step, hf.1] using h.2⟩
  | save env =>
    have hf := saveDocument_frame s env
    exact ⟨by simpa [step, hf.2.1] using h.1, by simpa [step, hf.1] using h.2⟩
  | openDoc env =>
    have hf := openDocument_frame s env
    exact ⟨by simpa [step, hf.2] using h.1, by simpa [step, hf.1] using h.2⟩
  | timer env =>
    have hf := autosave_frame s env
    exact ⟨by simpa [step, hf.2.1] using h.1, by simpa [step, hf.1] using h.2⟩
  | keydown ev => exact handleZoom_sizeInv s ev h
  | themeToggle => exact toggleTheme_sizeInv s h
  | fontFamily v => exact applyFontFamily_sizeInv _ _ h
  | fontSize v => exact applyFontSize_sizeInv _ _ (ha v rfl)
  | reloadPreferences => exact loadPreferences_sizeInv s h

theorem run_sizeInv (acts : List Action) :
    ∀ s : State, SizeInv s →
      (∀ v, Action.fontSize v ∈ acts → sizeInRange (.str v) = true) → SizeInv (run s acts) := by
  induction acts with
  | nil => intro s h _; exact h
  | cons a as ih =>
    intro s h hv
    have hs : SizeInv (step s a) :=
      step_sizeInv s a h (fun v hav => hv v (by rw [hav]; exact List.mem_cons_self _ _))
    exact ih (step s a) hs (fun v hmem => hv v (List.mem_cons_of_mem _ hmem))

/-- The startup sequence leaves the font size in range whenever the stored
preference is absent or in range. -/
theorem startup_sizeInv (page : State) (h : StoredSizeOk page.localStorage) :
    SizeInv (startup page).1 := by
  unfold startup
  simp only
  have hinv : ∀ t : State, SizeInv t → SizeInv (updateCounts t) := fun t ht => ht
  apply hinv
  apply loadPreferences_sizeInv
  have h18 : sizeInRange (.str (js "18")) = true := by decide
  split
  · exact ⟨h18, h⟩
  · exact ⟨h18, h⟩

theorem loadPreferences_size_none (s : State) (h : s.localStorage (js "fontSize") = none) :
    (loadPreferences s).selectedFontSize = s.selectedFontSize := by
  have h1 : (loadTheme s).localStorage = s.localStorage
      ∧ (loadTheme s).selectedFontSize = s.selectedFontSize := by
    unfold loadTheme
    simp only
    split <;> split <;> exact ⟨rfl, rfl⟩
  have h2 : (loadFontFamily (loadTheme s)).localStorage (js "fontSize") = none
      ∧ (loadFontFamily (loadTheme s)).selectedFontSize = s.selectedFontSize := by
    unfold loadFontFamily
    split
    · refine ⟨?_, h1.2⟩
      have hne : js "fontSize" ≠ js "fontFamily" := by decide
      simp only [applyFontFamily, setItem, hne, if_false, h1.1, h]
    · exact ⟨by rw [h1.1, h], h1.2⟩
  unfold loadPreferences loadFontSize
  split
  · next c cs hst => rw [h2.1] at hst; cases hst
  · exact h2.2

theorem startup_size_default (page : State) (h : page.localStorage (js "fontSize") = none) :
    (startup page).1.selectedFontSize = .str (js "18") := by
  unfold startup
  simp only
  have hu : ∀ t : State, (updateCounts t).selectedFontSize = t.selectedFontSize := fun _ => rfl
  rw [hu]
  split
  · refine (loadPreferences_size_none _ ?_).trans rfl
    exact h
  · refine (loadPreferences_size_none _ ?_).trans rfl
    exact h

/-- C9, as stated, fails: a stored `fontSize` preference of `100` becomes the
current font size at startup and stays the stored one, and so does the value
`100` of a size selector change: `applyFontSize` checks no range. -/
theorem startup_stored_size_out_of_range :
    (startup page100).1.selectedFontSize = .str (js "100")
    ∧ parseInt10 (startup page100).1.selectedFontSize.toStr = .int 100
    ∧ sizeInRange (startup page100).1.selectedFontSize = false
    ∧ (startup page100).1.localStorage (js "fontSize") = some (js "100")
    ∧ (fontSizeChange (sized 18) (js "100")).1.selectedFontSize = .str (js "100")
    ∧ (fontSizeChange (sized 18) (js "100")).1.localStorage (js "fontSize") = some (js "100") := by
  decide

/-- C9, amended: the font size is `18` at startup when no preference is
stored; `applyFontSize` makes whatever value it is given the current and the
stored font size, without a range check; and over every run of reactions
(zoom shortcuts, reloads of the preferences and all other handlers included)
that starts with the current size an integer of [12,48] and the stored
preference absent or such an integer, and whose size selector changes choose
integers of [12,48], the current size stays an integer of [12,48] (the number
or its decimal string) and the stored preference, when present, stays the
decimal string of an integer of [12,48]. -/
theorem fontSize_range_preserved (page s : State) (v : JSVal) (acts : List Action) :
    (page.localStorage (js "fontSize") = none →
        (startup page).1.selectedFontSize = .str (js "18") ∧ SizeInv (startup page).1)
    ∧ ((applyFontSize v s).selectedFontSize = v
        ∧ (applyFontSize v s).localStorage (js "fontSize") = some v.toStr)
    ∧ (SizeInv s → (∀ w, Action.fontSize w ∈ acts → sizeInRange (.str w) = true) →
        SizeInv (run s acts)
        ∧ (∃ n : Int, 12 ≤ n ∧ n ≤ 48
            ∧ ((run s acts).selectedFontSize = .num (.int n)
              ∨ (run s acts).selectedFontSize = .str (numToString (.int n))))
        ∧ (∀ w, (run s acts).localStorage (js "fontSize") = some w →
            ∃ n : Int, 12 ≤ n ∧ n ≤ 48 ∧ w = numToString (.int n))) := by
  refine ⟨fun h => ⟨startup_size_default page h, startup_sizeInv page ?_⟩, ⟨rfl, ?_⟩,
    fun h hv => ?_⟩
  · intro w hw; rw [h] at hw; cases hw
  · simp [applyFontSize, setItem]
  · have hr := run_sizeInv acts s h hv
    refine ⟨hr, (sizeInRange_iff _).1 hr.1, fun w hw => ?_⟩
    obtain ⟨n, hlo, hhi, hn | hn⟩ := (sizeInRange_iff _).1 (hr.2 w hw)
    · cases hn
    · exact ⟨n, hlo, hhi, JSVal.str.inj hn⟩

/-- Witness of C9 amended: from the startup of a page with nothing stored, a
zoom in, the choice of `24` in the selector and a reload of the preferences
keep the font size in range. -/
theorem fontSize_range_preserved_witness :
    (startup blankPage).1.selectedFontSize = .str (js "18")
    ∧ SizeInv (run (startup blankPage).1
        [.keydown { ctrlKey := true, key := js "+" }, .fontSize (js "24"), .reloadPreferences]) :=
  ⟨((fontSize_range_preserved blankPage blankPage (.str []) []).1 rfl).1,
   ((fontSize_range_preserved blankPage (startup blankPage).1 (.str [])
      [.keydown { ctrlKey := true, key := js "+" }, .fontSize (js "24"),
       .reloadPreferences]).2.2
     ((fontSize_range_preserved blankPage blankPage (.str []) []).1 rfl).2
     (by
       intro w hw
       simp only [List.mem_cons, List.mem_singleton, Action.fontSize.injEq, reduceCtorEq,
         false_or, or_false, List.not_mem_nil] at hw
       rw [hw]; decide)).1⟩

/-! ### The bound path over runs -/

theorem saveDocument_path (s : State) (env : Env) (h : s.currentFilePath ≠ some []) :
    (saveDocument s env).1.currentFilePath ≠ some [] := by
  have hw : ∀ (c : Nat) (cs d : JSString) (evs : List Event),
      (saveWrite s env (c :: cs) d evs).1.currentFilePath ≠ some [] := by
    intro c cs d evs
    unfold saveWrite
    cases env.writeTextFile (c :: cs) d
    · exact h
    · simp [markAsSaved]
  unfold saveDocument
  split
  · exact h
  · split
    · exact hw _ _ _ _
    · split
      · exact hw _ _ _ _
      · exact h
      · exact h

theorem loadPreferences_path (s : State) :
    (loadPreferences s).currentFilePath = s.currentFilePath := by
  have h1 : (loadTheme s).currentFilePath = s.currentFilePath := by
    unfold loadTheme
    simp only
    split <;> split <;> rfl
  have h2 : (loadFontFamily (loadTheme s)).currentFilePath = s.currentFilePath := by
    unfold loadFontFamily
    split
    · exact h1
    · exact h1
  unfold loadPreferences loadFontSize
  split
  · exact h2
  · exact h2

/-- Every reaction of the renderer leaves `currentFilePath` either `null` or
a non-empty string: on such states a path is bound exactly when the cell is
truthy. -/
theorem step_path (s : State) (a : Action) (h : s.currentFilePath ≠ some []) :
    (step s a).currentFilePath ≠ some [] := by
  cases a with
  | input t => simpa [step, (editorInput_frame s t).2.2.2.1] using h
  | newDoc env =>
    simp only [step, newDocument]
    cases s.hasUnsavedChanges <;> cases env.confirm <;> simp [markAsSaved, updateCounts, h]
  | save env => exact saveDocument_path s env h
  | openDoc env =>
    simp only [step, openDocument]
    rcases env.openDialog with e | _ | _ | ⟨c, cs⟩
    · exact h
    · exact h
    · exact h
    · cases hr : env.readTextFile (c :: cs) <;> simp [hr, markAsSaved, updateCounts, h]
  | timer env =>
    simp only [step, autosave]
    split
    · exact saveDocument_path s env h
    · exact h
  | keydown ev =>
    simp only [step, handleZoom]
    split
    · split
      · exact h
      · split
        · exact h
        · exact h
    · exact h
  | themeToggle =>
    simp only [step, toggleTheme]
    split <;> exact h
  | fontFamily v => exact h
  | fontSize v => exact h
  | reloadPreferences => simpa [step, loadPreferences_path] using h

/-- In every state reached from the startup of a page, `currentFilePath` is
`null` or a non-empty string. -/
theorem run_path (acts : List Action) :
    ∀ s : State, s.currentFilePath ≠ some [] → (run s acts).currentFilePath ≠ some [] := by
  induction acts with
  | nil => intro s h; exact h
  | cons a as ih => intro s h; exact ih (step s a) (step_path s a h)

theorem startup_path (page : State) : (startup page).1.currentFilePath = none := by
  unfold startup
  simp only
  have hu : ∀ t : State, (updateCounts t).currentFilePath = t.currentFilePath := fun _ => rfl
  rw [hu, loadPreferences_path]
  split <;> rfl

end Freewrite
